import Mathlib

/-!
# Verification of the auth-service core

Shallow embedding of the auth-service (Go) core: the JWT credential signer
(`jwt_service.go`), the auth engine (`auth_service.go`), the user model
(`models/user.go`), the profile repository (`user_repository.go`), the
Redis-backed session repository (documented source in
`internal/migrations/README.md`), and the migration manager
(`migration_manager.go`).

Machine integers are modelled as `Int`; wall-clock instants as `Int`
seconds.  Fallible Go calls return `Except String`.
-/

namespace AuthSpec

/-! ## Credential signer (jwt_service.go) -/

/-- `config.JWTConfig`: the secrets and expiry configuration used by the
signer.  Expiries are in seconds (the Go code parses duration strings). -/
structure JWTConfig where
  accessSecret : String
  refreshSecret : String
  issuer : String
  accessExpirySec : Int
  refreshExpirySec : Int
deriving DecidableEq

/-- `middleware.JWTClaims`: the claim bundle carried by both access and
refresh tokens. -/
structure JWTClaims where
  userID : String
  email : String
  username : String
  role : String
  type : String
  issuer : String
  subject : String
  issuedAt : Int
  expiresAt : Int
deriving DecidableEq

/-- Signing methods distinguished by the keyfunc in `ValidateToken` /
`ValidateRefreshToken` (`token.Method.(*jwt.SigningMethodHMAC)`). -/
inductive SigningMethod where
  | hmac256
  | other
deriving DecidableEq

/-- A signed token, modelled structurally: the claims it carries, the key it
was signed with and the signing method.  (The Go code works with the
serialized compact form; signature verification against key `k` succeeds
exactly when the token was signed with `k`.) -/
structure Token where
  claims : JWTClaims
  secret : String
  method : SigningMethod
deriving DecidableEq

/-- Model of `jwt.Parse` (github.com/golang-jwt/jwt/v5) with a keyfunc that
checks the method is HMAC and returns `key`: the library verifies the
signature against `key` and then validates the registered claims, rejecting
a token whose `exp` lies strictly in the past. -/
def jwtParse (key : String) (now : Int) (t : Token) : Except String JWTClaims :=
  if t.method ≠ SigningMethod.hmac256 then .error "invalid signing method"
  else if t.secret ≠ key then .error "signature is invalid"
  else if t.claims.expiresAt < now then .error "token is expired"
  else .ok t.claims

/-- `jwtService.ValidateToken`: parse/verify with the access secret, then
require the `type` claim to be `"access"`. -/
def validateToken (cfg : JWTConfig) (now : Int) (t : Token) :
    Except String JWTClaims :=
  match jwtParse cfg.accessSecret now t with
  | .error e => .error e
  | .ok claims =>
      if claims.type ≠ "access" then .error "invalid token type"
      else .ok claims

/-- `jwtService.ValidateRefreshToken`: parse/verify with the refresh secret,
then require the `type` claim to be `"refresh"`. -/
def validateRefreshToken (cfg : JWTConfig) (now : Int) (t : Token) :
    Except String JWTClaims :=
  match jwtParse cfg.refreshSecret now t with
  | .error e => .error e
  | .ok claims =>
      if claims.type ≠ "refresh" then .error "invalid token type"
      else .ok claims

/-! ## User model (models/user.go) -/

/-- `models.User`, restricted to the columns the verified operations read or
write.  `lockedUntil = some t` models a non-NULL `locked_until`. -/
structure User where
  id : String
  email : String
  username : String
  role : String
  passwordHash : String
  isActive : Bool
  failedLoginAttempts : Int
  lockedUntil : Option Int
deriving DecidableEq

/-- `User.IsLocked`: locked while `now` is before `locked_until`. -/
def isLocked (u : User) (now : Int) : Bool :=
  match u.lockedUntil with
  | none => false
  | some t => now < t

/-- `User.CanAttemptLogin`. -/
def canAttemptLogin (u : User) (now : Int) : Bool :=
  u.isActive && !(isLocked u now)

/-- `User.IncrementFailedAttempts`: increment, and lock for 15 minutes when
the post-increment count reaches 5. -/
def incrementFailedAttempts (u : User) (now : Int) : User :=
  let u' := { u with failedLoginAttempts := u.failedLoginAttempts + 1 }
  if u'.failedLoginAttempts ≥ 5 then
    { u' with lockedUntil := some (now + 15 * 60) }
  else u'

/-- `User.ResetFailedAttempts`. -/
def resetFailedAttempts (u : User) : User :=
  { u with failedLoginAttempts := 0, lockedUntil := none }

/-- `jwtService.GenerateAccessToken` at instant `now`. -/
def generateAccessToken (cfg : JWTConfig) (now : Int) (u : User) : Token :=
  { claims := { userID := u.id, email := u.email, username := u.username,
                role := u.role, type := "access", issuer := cfg.issuer,
                subject := u.id, issuedAt := now,
                expiresAt := now + cfg.accessExpirySec },
    secret := cfg.accessSecret, method := .hmac256 }

/-- `jwtService.GenerateRefreshToken` at instant `now`. -/
def generateRefreshToken (cfg : JWTConfig) (now : Int) (u : User) : Token :=
  { claims := { userID := u.id, email := u.email, username := u.username,
                role := u.role, type := "refresh", issuer := cfg.issuer,
                subject := u.id, issuedAt := now,
                expiresAt := now + cfg.refreshExpirySec },
    secret := cfg.refreshSecret, method := .hmac256 }

/-! ## Ephemeral store (sessionRepository, Redis-backed)

The session repository (source reproduced in
`internal/migrations/README.md`) builds flat Redis keys
`"refresh_token:" ++ hash` and `"blacklist:" ++ hash`.  The two prefixes
differ in their first character, so the string encoding of keys is
injective; a two-constructor key type is a faithful model of the key
space. -/

/-- A Redis key used by the session repository. -/
inductive CacheKey where
  | refreshTok (hash : String)
  | blacklist (hash : String)
deriving DecidableEq

/-- The ephemeral key/value store.  Values are the stored strings; for
`refresh_token:*` keys only the `user_id` field of the stored JSON document
is ever read back, so the value is modelled as that string. -/
def Store : Type := CacheKey → Option String

/-- Point update of the store (Redis `SET`). -/
def storeSet (st : Store) (k : CacheKey) (v : String) : Store :=
  fun k' => if k' = k then some v else st k'

/-- Point deletion (Redis `DEL`). -/
def storeDel (st : Store) (k : CacheKey) : Store :=
  fun k' => if k' = k then none else st k'

/-- `sessionRepository.StoreRefreshToken`: write `user_id` under the
`refresh_token:{hash}` key. -/
def storeRefreshToken (st : Store) (userID : String) (tokenHash : String) :
    Store :=
  storeSet st (.refreshTok tokenHash) userID

/-- `sessionRepository.GetRefreshTokenData`: read the `refresh_token:{hash}`
key; an absent key is the distinguished "refresh token not found" error. -/
def getRefreshTokenData (st : Store) (tokenHash : String) :
    Except String String :=
  match st (.refreshTok tokenHash) with
  | none => .error "refresh token not found"
  | some v => .ok v

/-- `sessionRepository.DeleteRefreshToken`. -/
def deleteRefreshToken (st : Store) (tokenHash : String) : Store :=
  storeDel st (.refreshTok tokenHash)

/-- `sessionRepository.IsTokenBlacklisted`: present means blacklisted,
`redis.Nil` (absent) means not blacklisted. -/
def isTokenBlacklisted (st : Store) (tokenHash : String) : Bool :=
  (st (.blacklist tokenHash)).isSome

/-! ## Auth engine state -/

/-- The state the verified auth-engine operations touch: the ephemeral
store and the persistent users table keyed by the UUID string. -/
structure AuthState where
  redis : Store
  users : String → Option User

/-- `userRepository.GetByID`: the query filters `id = ? AND is_active = ?`
with `true`, so an inactive user is reported as "user not found".  A
malformed UUID string (`uuid.Parse` failure in the callers) is folded into
the not-found case: both fail before any state change. -/
def getByID (users : String → Option User) (id : String) :
    Except String User :=
  match users id with
  | none => .error "user not found"
  | some u => if u.isActive then .ok u else .error "user not found"

/-- `models.RefreshResponse`. -/
structure RefreshResponse where
  accessToken : Token
  refreshToken : Token
  tokenType : String
  expiresIn : Int
deriving DecidableEq

/-- `authService.RefreshToken`.

* `hash` abstracts `jwtService.HashToken` (SHA-256 hex of the compact
  token); theorems state the collision-freeness they need pointwise.
* `delFails` is a transport oracle for the final
  `sessionRepo.DeleteRefreshToken` Redis call, whose error the Go code
  discards (`s.sessionRepo.DeleteRefreshToken(tokenHash)` with no error
  check); when it fails the deletion simply does not happen.
* The earlier store/read calls are modelled on their success path; their
  failures abort before any state change and are not needed by the claims.
* The source's `if !user.IsActive` check after `GetByID` is retained even
  though `GetByID` already filters on `is_active`. -/
def refreshTokenOp (cfg : JWTConfig) (hash : Token → String) (now : Int)
    (delFails : Bool) (st : AuthState) (req : Token) :
    Except String (RefreshResponse × AuthState) :=
  match validateRefreshToken cfg now req with
  | .error _ => .error "invalid refresh token"
  | .ok claims =>
      let tokenHash := hash req
      if isTokenBlacklisted st.redis tokenHash then
        .error "refresh token is blacklisted"
      else
        match getRefreshTokenData st.redis tokenHash with
        | .error _ => .error "refresh token not found"
        | .ok userIDStr =>
            if userIDStr ≠ claims.userID then .error "invalid refresh token"
            else
              match getByID st.users userIDStr with
              | .error _ => .error "user not found"
              | .ok user =>
                  if !user.isActive then .error "user account is inactive"
                  else
                    let newAccessToken := generateAccessToken cfg now user
                    let newRefreshToken := generateRefreshToken cfg now user
                    let newHash := hash newRefreshToken
                    let st1 : AuthState :=
                      { st with
                        redis := storeRefreshToken st.redis user.id newHash }
                    let st2 : AuthState :=
                      if delFails then st1
                      else { st1 with
                             redis := deleteRefreshToken st1.redis tokenHash }
                    .ok ({ accessToken := newAccessToken,
                           refreshToken := newRefreshToken,
                           tokenType := "Bearer",
                           expiresIn := 15 * 60 }, st2)

/-- `models.VerifyTokenResponse`. -/
structure VerifyTokenResponse where
  valid : Bool
  userID : String
  role : String
  email : String
deriving DecidableEq

/-- The `{Valid: false}` response every failure path of `VerifyToken`
returns (all other fields are Go zero values). -/
def invalidResp : VerifyTokenResponse :=
  { valid := false, userID := "", role := "", email := "" }

/-- `authService.VerifyToken`.  `blErr` is a transport oracle for the
`IsTokenBlacklisted` Redis call: on a transport error the Go code returns
`{Valid: false}` with a nil error, like every other failure path.  The
result pairs the response with the returned Go `error` (`none` = nil). -/
def verifyTokenOp (cfg : JWTConfig) (hash : Token → String) (blErr : Bool)
    (now : Int) (st : AuthState) (tok : Token) :
    VerifyTokenResponse × Option String :=
  match validateToken cfg now tok with
  | .error _ => (invalidResp, none)
  | .ok claims =>
      if blErr then (invalidResp, none)
      else if isTokenBlacklisted st.redis (hash tok) then (invalidResp, none)
      else
        match getByID st.users claims.userID with
        | .error _ => (invalidResp, none)
        | .ok user =>
            if !user.isActive then (invalidResp, none)
            else ({ valid := true, userID := claims.userID,
                    role := claims.role, email := claims.email }, none)

/-! ## Login (lockout-relevant fragment of `authService.Login`)

The model covers the user-row effects of `Login`: the `CanAttemptLogin`
gate, the failed-attempt counter and lock, and the reset on success.  Token
issuance and session insertion follow the reset in the source and do not
touch the lockout columns, so they are outside this fragment. -/

/-- Outcome of a login attempt, by the error strings of the source. -/
inductive LoginResult where
  | success
  | invalidCredentials
  | locked
  | inactive
deriving DecidableEq

/-- The lockout fragment of `authService.Login`.  `verify` abstracts
`bcrypt.CompareHashAndPassword` (password, hash → ok).  `ouser` is the
result of `GetByEmail` (`none` = not found / inactive / deleted).  Returns
the outcome and the user row as left in the database. -/
def login (verify : String → String → Bool) (now : Int)
    (ouser : Option User) (password : String) :
    LoginResult × Option User :=
  match ouser with
  | none => (.invalidCredentials, none)
  | some user =>
      if !(canAttemptLogin user now) then
        if isLocked user now then (.locked, some user)
        else (.inactive, some user)
      else if !(verify password user.passwordHash) then
        (.invalidCredentials, some (incrementFailedAttempts user now))
      else if user.failedLoginAttempts > 0 then
        (.success, some (resetFailedAttempts user))
      else
        (.success, some user)

/-- Reachability invariant of the lockout columns: the counter is never
negative (`failed_login_attempts INTEGER DEFAULT 0`, only incremented or
reset), and the only write that sets `locked_until`
(`IncrementFailedAttempts`) does so exactly when the counter reaches 5,
while the only write that clears the counter (`ResetFailedAttempts`) also
clears `locked_until`.  Newly registered users start at `(0, none)`. -/
def lockoutInv (u : User) : Prop :=
  0 ≤ u.failedLoginAttempts ∧
  (u.lockedUntil ≠ none → 5 ≤ u.failedLoginAttempts)

/-! ## Profile update (user_repository.go) -/

/-- `allowedProfileFields`: the allowlist of updatable profile columns. -/
def allowedProfileFields : List String :=
  ["first_name", "last_name", "bio", "phone_number", "avatar_url",
   "date_of_birth", "gender", "country", "city", "timezone", "language",
   "website", "linkedin", "twitter", "github"]

/-- A users-table row for the profile model: the `is_active` column plus
the remaining columns as a name-indexed assignment (this includes
`password_hash`). -/
structure UserRow where
  isActive : Bool
  cols : String → String

/-- The users table keyed by the UUID string.  `none` covers both a
missing row and a soft-deleted one. -/
def UsersTable : Type := String → Option UserRow

/-- First-match lookup in a field map (Go maps have unique keys). -/
def lookupField : List (String × String) → String → Option String
  | [], _ => none
  | (k, v) :: rest, key => if k = key then some v else lookupField rest key

/-- `validateProfileUpdateFields`: nil map and empty map are rejected.  A
Go `nil` map is modelled as `none`. -/
def validateProfileUpdateFields
    (fields : Option (List (String × String))) :
    Except String (List (String × String)) :=
  match fields with
  | none => .error "fields map cannot be nil"
  | some fs => if fs.isEmpty then .error "no fields to update" else .ok fs

/-- `filterAllowedFields`: keep only allowlisted keys; error when nothing
remains. -/
def filterAllowedFields (fields : List (String × String)) :
    Except String (List (String × String)) :=
  let updateFields :=
    fields.filter (fun kv => allowedProfileFields.contains kv.1)
  if updateFields.isEmpty then .error "no valid fields to update"
  else .ok updateFields

/-- GORM `Updates(updateFields)` on one row: listed columns take the given
values, all others keep theirs. -/
def applyUpdates (r : UserRow) (upd : List (String × String)) : UserRow :=
  { r with cols := fun c =>
      match lookupField upd c with
      | some v => v
      | none => r.cols c }

/-- `userRepository.UpdateProfile`: validate, filter to the allowlist,
require an existing active user, then update exactly the filtered
columns. -/
def updateProfile (db : UsersTable) (userID : String)
    (fields : Option (List (String × String))) : Except String UsersTable :=
  match validateProfileUpdateFields fields with
  | .error e => .error e
  | .ok fs =>
      match filterAllowedFields fs with
      | .error e => .error e
      | .ok updateFields =>
          match db userID with
          | none => .error "user not found"
          | some row =>
              if row.isActive then
                .ok (fun uid =>
                  if uid = userID then some (applyUpdates row updateFields)
                  else db uid)
              else .error "user not found"

/-! ## Migration manager (migration_manager.go) -/

/-- Lowercase hex digit, as produced by Go `fmt.Sprintf("%x", ...)`. -/
def hexDigitChar (n : Nat) : Char :=
  if n < 10 then Char.ofNat (48 + n) else Char.ofNat (87 + n)

/-- The two hex characters of one byte. -/
def hexByteChars (b : Fin 256) : List Char :=
  [hexDigitChar (b.val / 16), hexDigitChar (b.val % 16)]

/-- Hex rendering of a byte string. -/
def hexOfBytes (bs : List (Fin 256)) : String :=
  String.mk (bs.map hexByteChars).flatten

/-- `MigrationManager.calculateChecksum`: lowercase hex of the SHA-256
digest of the content.  `sha256` abstracts the digest function
(`crypto/sha256`), which returns 32 bytes. -/
def calculateChecksum (sha256 : String → List (Fin 256))
    (content : String) : String :=
  hexOfBytes (sha256 content)

/-- Digits-only accumulator for `goAtoi`. -/
def parseDigitsAux : List Char → Nat → Option Nat
  | [], acc => some acc
  | c :: rest, acc =>
      if c.isDigit then parseDigitsAux rest (acc * 10 + (c.toNat - 48))
      else none

/-- Parse a non-empty all-digit string; anything else is a syntax error. -/
def parseDigits (l : List Char) : Option Nat :=
  match l with
  | [] => none
  | _ => parseDigitsAux l 0

/-- `none` (a `strconv.Atoi` error) collapses to the zero value, as in the
source `vi, _ := strconv.Atoi(...)`. -/
def natOrZero (o : Option Nat) : Int :=
  match o with
  | some n => (n : Int)
  | none => 0

/-- Go `strconv.Atoi` as used by the version sort: optional sign then
digits; on any syntax error the assigned value is 0 because the error is
discarded.  (The out-of-range case needs > 19 digits and cannot arise for
the 50-char version column.) -/
def goAtoi (s : String) : Int :=
  match s.data with
  | '+' :: rest => natOrZero (parseDigits rest)
  | '-' :: rest => - natOrZero (parseDigits rest)
  | l => natOrZero (parseDigits l)

/-- `migrations.Migration`. -/
structure Migration where
  version : String
  name : String
  content : String
  checksum : String
  upSQL : String
  downSQL : String
deriving DecidableEq

/-- Marker test of `splitMigrationContent`: a trimmed line opening the DOWN
region. -/
def lineStartsDown (line : String) : Bool :=
  let trimmed := line.trim
  trimmed.startsWith "-- DOWN MIGRATION" || trimmed.startsWith "-- ROLLBACK"

/-- Line-splitting loop of `splitMigrationContent`: marker lines are
dropped and flip the section flag. -/
def splitMigLines : List String → Bool → List String × List String
  | [], _ => ([], [])
  | line :: rest, inDown =>
      if lineStartsDown line then splitMigLines rest true
      else
        let (u, d) := splitMigLines rest inDown
        if inDown then (u, line :: d) else (line :: u, d)

/-- `MigrationManager.splitMigrationContent`. -/
def splitMigrationContent (content : String) : String × String :=
  let (u, d) := splitMigLines (content.splitOn "\n") false
  ((String.intercalate "\n" u).trim, (String.intercalate "\n" d).trim)

/-- `MigrationManager.parseMigrationFile` (file already read into
`content`). -/
def parseMigrationFile (sha256 : String → List (Fin 256))
    (version name content : String) : Migration :=
  let checksum := calculateChecksum sha256 content
  let ud := splitMigrationContent content
  { version := version, name := name, content := content,
    checksum := checksum, upSQL := ud.1, downSQL := ud.2 }

/-- Split a character list at its first underscore: the part before and
the remainder; `none` when there is no underscore. -/
def splitOnUnderscore : List Char → Option (List Char × List Char)
  | [] => none
  | c :: rest =>
      if c = '_' then some ([], rest)
      else
        match splitOnUnderscore rest with
        | none => none
        | some vr => some (c :: vr.1, vr.2)

/-- Go `strings.SplitN(fileName, "_", 2)`: the part before the first
underscore and the remainder; `none` when there is no underscore (such
file names are skipped with a warning). -/
def splitVersionName (fileName : String) : Option (String × String) :=
  match splitOnUnderscore fileName.data with
  | none => none
  | some vr => some (String.mk vr.1, String.mk vr.2)

/-- Go `strings.HasSuffix` over character lists. -/
def hasSuffixChars (s sfx : List Char) : Bool :=
  s.reverse.take sfx.length == sfx.reverse

/-- Go `strings.TrimSuffix`. -/
def trimSuffix (s sfx : String) : String :=
  if hasSuffixChars s.data sfx.data then
    String.mk (s.data.take (s.data.length - sfx.data.length))
  else s

/-- One step of the `loadMigrationFiles` directory walk: skip non-`.sql`
files and names without an underscore, else parse. -/
def mkMigrationFromFile (sha256 : String → List (Fin 256))
    (fileName content : String) : Option Migration :=
  if !hasSuffixChars fileName.data ".sql".data then none
  else
    match splitVersionName fileName with
    | none => none
    | some vr =>
        some (parseMigrationFile sha256 vr.1 (trimSuffix vr.2 ".sql") content)

/-- Ordered insertion by the numeric version key `goAtoi`. -/
def insertByVersion (mg : Migration) : List Migration → List Migration
  | [] => [mg]
  | x :: xs =>
      if goAtoi mg.version ≤ goAtoi x.version then mg :: x :: xs
      else x :: insertByVersion mg xs

/-- Insertion sort by `goAtoi` of the version.  The source uses
`sort.Slice` with `Atoi(vi) < Atoi(vj)`, which is unstable, so the order
of equal keys is unspecified there; this realizes one admissible order. -/
def sortMigrations : List Migration → List Migration
  | [] => []
  | x :: xs => insertByVersion x (sortMigrations xs)

/-- `MigrationManager.loadMigrationFiles` over an in-memory directory
listing (file name, content). -/
def loadMigrationFiles (sha256 : String → List (Fin 256))
    (files : List (String × String)) : List Migration :=
  sortMigrations (files.filterMap
    (fun fc => mkMigrationFromFile sha256 fc.1 fc.2))

/-- `migrations.MigrationRecord` (row of `schema_migrations`). -/
structure MigrationRecord where
  version : String
  name : String
  checksum : String
  appliedBy : String
  environment : String
deriving DecidableEq

/-- `MigrationManager.getAppliedVersions`: versions of the records whose
`environment` equals the managers environment. -/
def getAppliedVersions (table : List MigrationRecord) (env : String) :
    List String :=
  (table.filter (fun r => r.environment = env)).map (fun r => r.version)

/-- `MigrationManager.GetPendingMigrations` given the loaded artifact
list: artifacts whose version is not applied in this environment, in load
order. -/
def getPendingMigrations (all : List Migration)
    (table : List MigrationRecord) (env : String) : List Migration :=
  all.filter (fun mg => !(getAppliedVersions table env).contains mg.version)

/-- Insert into `schema_migrations`.  The bootstrapping DDL declares
`version VARCHAR(50) UNIQUE NOT NULL`, i.e. the unique constraint is on
`version` alone, not on `(version, environment)`. -/
def insertMigrationRecord (table : List MigrationRecord)
    (r : MigrationRecord) : Except String (List MigrationRecord) :=
  if table.any (fun x => x.version = r.version) then
    .error "duplicate key value violates unique constraint"
  else .ok (table ++ [r])

/-- Database state seen by the migrator: an abstract schema state `σ` plus
the `schema_migrations` table. -/
structure MigState (σ : Type) where
  schema : σ
  table : List MigrationRecord

/-- `migrations.MigrationResult` (execution timing omitted). -/
structure MigrationResult where
  migration : Migration
  success : Bool
  errMsg : Option String
deriving DecidableEq

/-- The tracking row `applyMigration` inserts. -/
def migRecordOf (env : String) (mg : Migration) : MigrationRecord :=
  { version := mg.version, name := mg.name, checksum := mg.checksum,
    appliedBy := "migration_manager", environment := env }

/-- `MigrationManager.applyMigration`: `Begin`; execute the UP SQL;
insert the tracking row; `Commit` — with `defer tx.Rollback()`, so on any
error the state is unchanged.  `exec` abstracts the SQL interpreter
(`tx.Exec`) on the schema state. -/
def applyMigration {σ : Type} (exec : String → σ → Except String σ)
    (env : String) (st : MigState σ) (mg : Migration) :
    MigrationResult × MigState σ :=
  match exec mg.upSQL st.schema with
  | .error e => ({ migration := mg, success := false, errMsg := some e }, st)
  | .ok schema2 =>
      match insertMigrationRecord st.table (migRecordOf env mg) with
      | .error e =>
          ({ migration := mg, success := false, errMsg := some e }, st)
      | .ok table2 =>
          ({ migration := mg, success := true, errMsg := none },
           { schema := schema2, table := table2 })

/-- The loop of `MigrationManager.ApplyMigrations`: apply each pending
artifact in order; the first failure stops the loop and the accumulated
results (the failed one included) are returned together with the error. -/
def applyMigrationsFrom {σ : Type} (exec : String → σ → Except String σ)
    (env : String) :
    MigState σ → List Migration →
    List MigrationResult × MigState σ × Option String
  | st, [] => ([], st, none)
  | st, mg :: rest =>
      let rs := applyMigration exec env st mg
      if rs.1.success then
        let rec2 := applyMigrationsFrom exec env rs.2 rest
        (rs.1 :: rec2.1, rec2.2)
      else
        ([rs.1], rs.2, some ("migration " ++ mg.version ++ " failed"))

/-- `MigrationManager.ApplyMigrations`: load, compute the pending list for
this environment, then run the loop. -/
def applyMigrations {σ : Type} (exec : String → σ → Except String σ)
    (env : String) (sha256 : String → List (Fin 256))
    (files : List (String × String)) (st : MigState σ) :
    List MigrationResult × MigState σ × Option String :=
  applyMigrationsFrom exec env st
    (getPendingMigrations (loadMigrationFiles sha256 files) st.table env)

/-- The `contains` helper of migration_manager.go. -/
def containsStr (slice : List String) (item : String) : Bool :=
  slice.any (fun s => s = item)

/-- The required-table list of `ValidateSchema`. -/
def requiredTables : List String :=
  ["users", "sessions", "login_attempts", "user_preferences",
   "user_activities", "user_notifications", "schema_migrations"]

/-- `MigrationManager.ValidateSchema` over the current table listing: it
checks only that every required table exists; it reads no checksums. -/
def validateSchema (tables : List String) : Except String Unit :=
  match requiredTables.filter (fun t => !containsStr tables t) with
  | [] => .ok ()
  | t :: _ => .error ("required table " ++ t ++ " is missing")

/-- Modelled from the spec: the lexicographic (byte-wise) string order
that "Version strings are sorted as strings" refers to, written out over
character lists so that it evaluates; compared against the numeric order
the source actually uses. -/
def lexLeChars : List Char → List Char → Bool
  | [], _ => true
  | _ :: _, [] => false
  | a :: as, b :: bs => if a = b then lexLeChars as bs else decide (a < b)

/-- Modelled from the spec: lexicographic string comparison. -/
def stringLexLe (a b : String) : Bool := lexLeChars a.data b.data

/-! ## Concrete instances used by witnesses and closed theorems -/

def demoCfg : JWTConfig :=
  { accessSecret := "as", refreshSecret := "rs", issuer := "auth-service",
    accessExpirySec := 900, refreshExpirySec := 604800 }

def demoUser : User :=
  { id := "u1", email := "a@x", username := "a", role := "user",
    passwordHash := "pw", isActive := true, failedLoginAttempts := 0,
    lockedUntil := none }

/-- A concrete stand-in for the SHA-256 token fingerprint, collision-free
on the tokens the witnesses use (they differ in `iat`). -/
def demoHash : Token → String := fun t => toString t.claims.issuedAt

/-- A refresh token issued earlier (`iat = -10`), present in the demo
store. -/
def demoOldRefresh : Token := generateRefreshToken demoCfg (-10) demoUser

def demoStore : Store := fun k =>
  if k = CacheKey.refreshTok (demoHash demoOldRefresh) then some "u1"
  else none

def demoState : AuthState :=
  { redis := demoStore,
    users := fun uid => if uid = "u1" then some demoUser else none }

/-- A concrete stand-in for the SHA-256 content digest (32 bytes). -/
def demoSha : String → List (Fin 256) := fun _ => List.replicate 32 0

/-- A concrete migration artifact, version `001`. -/
def demoMigration : Migration :=
  { version := "001", name := "initial_schema",
    content := "CREATE TABLE users ();",
    checksum := calculateChecksum demoSha "CREATE TABLE users ();",
    upSQL := "CREATE TABLE users ();", downSQL := "" }

/-- A `schema_migrations` row recording version `001` as applied in the
`development` environment. -/
def devRecord : MigrationRecord :=
  { version := "001", name := "initial_schema",
    checksum := calculateChecksum demoSha "CREATE TABLE users ();",
    appliedBy := "migration_manager", environment := "development" }

/-- A `schema_migrations` row for version `001` whose recorded checksum
(64 times `f`) no longer matches the hash of the artifact now on disk. -/
def staleChecksumRecord : MigrationRecord :=
  { version := "001", name := "initial_schema",
    checksum := String.mk (List.replicate 64 'f'),
    appliedBy := "migration_manager", environment := "development" }

/-! ## Shared lemmas -/

theorem jwtParse_ok_iff (key : String) (now : Int) (t : Token)
    (c : JWTClaims) :
    jwtParse key now t = .ok c ↔
      t.method = SigningMethod.hmac256 ∧ t.secret = key ∧
      ¬(t.claims.expiresAt < now) ∧ c = t.claims := by
  unfold jwtParse
  split
  · simp_all
  · split
    · simp_all
    · split
      · simp_all
      · simp_all [eq_comm]

theorem validateToken_ok_iff (cfg : JWTConfig) (now : Int) (t : Token)
    (c : JWTClaims) :
    validateToken cfg now t = .ok c ↔
      t.method = SigningMethod.hmac256 ∧ t.secret = cfg.accessSecret ∧
      ¬(t.claims.expiresAt < now) ∧ t.claims.type = "access" ∧
      c = t.claims := by
  unfold validateToken jwtParse
  constructor
  · intro h
    by_cases hm : t.method = SigningMethod.hmac256
    · by_cases hs : t.secret = cfg.accessSecret
      · by_cases he : t.claims.expiresAt < now
        · simp [hm, hs, he] at h
        · by_cases hty : t.claims.type = "access"
          · simp [hm, hs, he, hty] at h
            exact ⟨hm, hs, he, hty, h.symm⟩
          · simp [hm, hs, he, hty] at h
      · simp [hm, hs] at h
    · simp [hm] at h
  · rintro ⟨hm, hs, he, hty, rfl⟩
    simp [hm, hs, he, hty]

theorem validateRefreshToken_ok_iff (cfg : JWTConfig) (now : Int)
    (t : Token) (c : JWTClaims) :
    validateRefreshToken cfg now t = .ok c ↔
      t.method = SigningMethod.hmac256 ∧ t.secret = cfg.refreshSecret ∧
      ¬(t.claims.expiresAt < now) ∧ t.claims.type = "refresh" ∧
      c = t.claims := by
  unfold validateRefreshToken jwtParse
  constructor
  · intro h
    by_cases hm : t.method = SigningMethod.hmac256
    · by_cases hs : t.secret = cfg.refreshSecret
      · by_cases he : t.claims.expiresAt < now
        · simp [hm, hs, he] at h
        · by_cases hty : t.claims.type = "refresh"
          · simp [hm, hs, he, hty] at h
            exact ⟨hm, hs, he, hty, h.symm⟩
          · simp [hm, hs, he, hty] at h
      · simp [hm, hs] at h
    · simp [hm] at h
  · rintro ⟨hm, hs, he, hty, rfl⟩
    simp [hm, hs, he, hty]

theorem except_error_of_not_ok {α : Type} (x : Except String α)
    (h : ∀ c, x ≠ .ok c) : ∃ e, x = .error e := by
  cases x with
  | error e => exact ⟨e, rfl⟩
  | ok c => exact absurd rfl (h c)

/-! ## C6: credential key isolation -/

/-- C6: `verify_access` accepts only tokens signed with the access secret
whose type claim is "access", and `verify_refresh` accepts only tokens
signed with the refresh secret whose type claim is "refresh"; a token
signed with the other secret, or carrying the other type claim, fails
verification. -/
theorem credential_key_isolation (cfg : JWTConfig) (now : Int) (t : Token)
    (hsec : cfg.accessSecret ≠ cfg.refreshSecret) :
    (∀ c, validateToken cfg now t = .ok c →
        t.secret = cfg.accessSecret ∧ t.claims.type = "access") ∧
    (∀ c, validateRefreshToken cfg now t = .ok c →
        t.secret = cfg.refreshSecret ∧ t.claims.type = "refresh") ∧
    (t.secret = cfg.refreshSecret →
        ∃ e, validateToken cfg now t = .error e) ∧
    (t.secret = cfg.accessSecret →
        ∃ e, validateRefreshToken cfg now t = .error e) ∧
    (t.claims.type = "refresh" →
        ∃ e, validateToken cfg now t = .error e) ∧
    (t.claims.type = "access" →
        ∃ e, validateRefreshToken cfg now t = .error e) := by
  refine ⟨?_, ?_, ?_, ?_, ?_, ?_⟩
  · intro c h
    have := (validateToken_ok_iff cfg now t c).mp h
    exact ⟨this.2.1, this.2.2.2.1⟩
  · intro c h
    have := (validateRefreshToken_ok_iff cfg now t c).mp h
    exact ⟨this.2.1, this.2.2.2.1⟩
  · intro hs
    refine except_error_of_not_ok _ (fun c h => ?_)
    have := (validateToken_ok_iff cfg now t c).mp h
    exact hsec (this.2.1 ▸ hs ▸ rfl)
  · intro hs
    refine except_error_of_not_ok _ (fun c h => ?_)
    have := (validateRefreshToken_ok_iff cfg now t c).mp h
    exact hsec (hs ▸ this.2.1 ▸ rfl)
  · intro hty
    refine except_error_of_not_ok _ (fun c h => ?_)
    have := (validateToken_ok_iff cfg now t c).mp h
    simp [hty] at this
  · intro hty
    refine except_error_of_not_ok _ (fun c h => ?_)
    have := (validateRefreshToken_ok_iff cfg now t c).mp h
    simp [hty] at this

/-- Witness for C6: at the demo configuration (distinct secrets), a token
signed with the refresh secret is rejected by access verification. -/
theorem credential_key_isolation_witness :
    ∃ e, validateToken demoCfg 0 (generateRefreshToken demoCfg 0 demoUser) =
      .error e :=
  (credential_key_isolation demoCfg 0
    (generateRefreshToken demoCfg 0 demoUser) (by decide)).2.2.1 rfl

/-! ## C7: opaque verification failure -/

theorem verifyTokenOp_cases (cfg : JWTConfig) (hash : Token → String)
    (blErr : Bool) (now : Int) (st : AuthState) (tok : Token) :
    verifyTokenOp cfg hash blErr now st tok = (invalidResp, none) ∨
    ∃ claims user, validateToken cfg now tok = .ok claims ∧ blErr = false ∧
      isTokenBlacklisted st.redis (hash tok) = false ∧
      getByID st.users claims.userID = .ok user ∧
      verifyTokenOp cfg hash blErr now st tok =
        ({ valid := true, userID := claims.userID, role := claims.role,
           email := claims.email }, none) := by
  unfold verifyTokenOp
  cases hv : validateToken cfg now tok with
  | error e => exact .inl rfl
  | ok claims =>
      cases blErr with
      | true => exact .inl (by simp)
      | false =>
          cases hb : isTokenBlacklisted st.redis (hash tok) with
          | true => exact .inl (by simp [hb])
          | false =>
              cases hg : getByID st.users claims.userID with
              | error e => exact .inl (by simp [hb, hg])
              | ok user =>
                  by_cases ha : user.isActive
                  · exact .inr ⟨claims, user, rfl, rfl, rfl, hg,
                      by simp [hg, ha]⟩
                  · exact .inl (by simp [hg, ha])

/-- C7: for every input token `VerifyToken` returns either the valid
attestation `{valid:true, user_id, role, email}` or exactly
`{valid:false}`, always with a nil error; a malformed or expired token, a
transport error from the ephemeral store, a blacklisted token, and a
missing or inactive user all yield exactly `{valid:false}`. -/
theorem verify_token_collapses_failures (cfg : JWTConfig) (hash : Token → String)
    (blErr : Bool) (now : Int) (st : AuthState) (tok : Token) :
    (verifyTokenOp cfg hash blErr now st tok).2 = none ∧
    ((verifyTokenOp cfg hash blErr now st tok).1 = invalidResp ∨
      ∃ claims, validateToken cfg now tok = .ok claims ∧
        (verifyTokenOp cfg hash blErr now st tok).1 =
          { valid := true, userID := claims.userID, role := claims.role,
            email := claims.email }) ∧
    ((∃ e, validateToken cfg now tok = .error e) →
        verifyTokenOp cfg hash blErr now st tok = (invalidResp, none)) ∧
    (blErr = true →
        verifyTokenOp cfg hash blErr now st tok = (invalidResp, none)) ∧
    (blErr = false → isTokenBlacklisted st.redis (hash tok) = true →
        verifyTokenOp cfg hash blErr now st tok = (invalidResp, none)) ∧
    (∀ claims, validateToken cfg now tok = .ok claims →
        (st.users claims.userID = none ∨
          (∃ u, st.users claims.userID = some u ∧ u.isActive = false)) →
        verifyTokenOp cfg hash blErr now st tok = (invalidResp, none)) := by
  refine ⟨?_, ?_, ?_, ?_, ?_, ?_⟩
  · rcases verifyTokenOp_cases cfg hash blErr now st tok with h | ⟨c, u, _, _, _, _, h⟩ <;>
      simp [h]
  · rcases verifyTokenOp_cases cfg hash blErr now st tok with h | ⟨c, u, hv, _, _, _, h⟩
    · exact .inl (by simp [h])
    · exact .inr ⟨c, hv, by simp [h]⟩
  · rintro ⟨e, he⟩
    simp [verifyTokenOp, he]
  · rintro rfl
    cases hv : validateToken cfg now tok <;> simp [verifyTokenOp, hv]
  · rintro rfl hb
    cases hv : validateToken cfg now tok <;> simp [verifyTokenOp, hv, hb]
  · intro claims hv hu
    have hg : getByID st.users claims.userID = .error "user not found" := by
      rcases hu with hnone | ⟨u, hsome, hin⟩
      · simp [getByID, hnone]
      · simp [getByID, hsome, hin]
    cases blErr with
    | true => simp [verifyTokenOp, hv]
    | false =>
        cases hb : isTokenBlacklisted st.redis (hash tok) with
        | true => simp [verifyTokenOp, hv, hb]
        | false => simp [verifyTokenOp, hv, hb, hg]

/-- Witness for C7: at the demo state with a transport error flagged, the
result is exactly `{valid:false}` with a nil error. -/
theorem verify_token_collapses_failures_witness :
    verifyTokenOp demoCfg demoHash true 0 demoState
      (generateAccessToken demoCfg 0 demoUser) = (invalidResp, none) :=
  (verify_token_collapses_failures demoCfg demoHash true 0 demoState
    (generateAccessToken demoCfg 0 demoUser)).2.2.2.1 rfl

/-! ## C3: login lockout -/

theorem incrementFailedAttempts_fla (u : User) (now : Int) :
    (incrementFailedAttempts u now).failedLoginAttempts =
      u.failedLoginAttempts + 1 := by
  by_cases h : 5 ≤ u.failedLoginAttempts + 1 <;>
    simp [incrementFailedAttempts, ge_iff_le, h]

theorem incrementFailedAttempts_locked_pos (u : User) (now : Int)
    (h : 5 ≤ u.failedLoginAttempts + 1) :
    (incrementFailedAttempts u now).lockedUntil = some (now + 15 * 60) := by
  simp [incrementFailedAttempts, ge_iff_le, h]

theorem incrementFailedAttempts_locked_neg (u : User) (now : Int)
    (h : u.failedLoginAttempts + 1 < 5) :
    (incrementFailedAttempts u now).lockedUntil = u.lockedUntil := by
  simp [incrementFailedAttempts, ge_iff_le, not_le.mpr h]

/-- C3: on a login that reaches password verification (active, unlocked
account) with a wrong password, `failed_login_attempts` is incremented
and, when the post-increment value is at least 5, `locked_until` is set to
`now + 15` minutes (otherwise it is unchanged); while `locked_until` lies
in the future every login for that user is rejected with the locked error;
and a successful login leaves the row with `failed_login_attempts = 0` and
`locked_until` cleared.  The last part uses the reachability invariant
`lockoutInv`, which (final conjunct) every row written by `login`
preserves. -/
theorem login_lockout_policy (verify : String → String → Bool) (now : Int)
    (u : User) (password : String) :
    (canAttemptLogin u now = true → verify password u.passwordHash = false →
      login verify now (some u) password =
        (.invalidCredentials, some (incrementFailedAttempts u now)) ∧
      (incrementFailedAttempts u now).failedLoginAttempts =
        u.failedLoginAttempts + 1 ∧
      (5 ≤ u.failedLoginAttempts + 1 →
        (incrementFailedAttempts u now).lockedUntil =
          some (now + 15 * 60)) ∧
      (u.failedLoginAttempts + 1 < 5 →
        (incrementFailedAttempts u now).lockedUntil = u.lockedUntil)) ∧
    (∀ t, u.lockedUntil = some t → now < t →
      (login verify now (some u) password).1 = .locked) ∧
    (lockoutInv u → (login verify now (some u) password).1 = .success →
      ∃ u2, (login verify now (some u) password).2 = some u2 ∧
        u2.failedLoginAttempts = 0 ∧ u2.lockedUntil = none) ∧
    (lockoutInv u → ∀ u2,
      (login verify now (some u) password).2 = some u2 → lockoutInv u2) := by
  refine ⟨?_, ?_, ?_, ?_⟩
  · intro hc hw
    exact ⟨by simp [login, hc, hw], incrementFailedAttempts_fla u now,
      fun h5 => incrementFailedAttempts_locked_pos u now h5,
      fun h5 => incrementFailedAttempts_locked_neg u now h5⟩
  · intro t ht hnow
    have hl : isLocked u now = true := by simp [isLocked, ht, hnow]
    simp [login, canAttemptLogin, hl]
  · intro hinv hs
    by_cases hc : canAttemptLogin u now
    · by_cases hw : verify password u.passwordHash
      · by_cases hf : u.failedLoginAttempts > 0
        · refine ⟨resetFailedAttempts u, ?_, rfl, rfl⟩
          simp [login, hc, hw, hf]
        · refine ⟨u, ?_, ?_, ?_⟩
          · simp [login, hc, hw, hf]
          · have h1 := hinv.1
            omega
          · by_cases hl : u.lockedUntil = none
            · exact hl
            · have h2 := hinv.2 hl
              omega
      · simp [login, hc, hw] at hs
    · cases hl : isLocked u now <;> simp [login, hc, hl] at hs
  · intro hinv u2 h2
    by_cases hc : canAttemptLogin u now
    · by_cases hw : verify password u.passwordHash
      · by_cases hf : u.failedLoginAttempts > 0
        · simp [login, hc, hw, hf] at h2
          subst h2
          exact ⟨le_refl 0, by simp [resetFailedAttempts]⟩
        · simp [login, hc, hw, hf] at h2
          subst h2
          exact hinv
      · simp [login, hc, hw] at h2
        subst h2
        constructor
        · rw [incrementFailedAttempts_fla]
          have h1 := hinv.1
          omega
        · intro hne
          rw [incrementFailedAttempts_fla]
          by_cases h5 : 5 ≤ u.failedLoginAttempts + 1
          · exact h5
          · rw [incrementFailedAttempts_locked_neg u now (by omega)] at hne
            have h2 := hinv.2 hne
            omega
    · cases hl : isLocked u now <;> simp [login, hc, hl] at h2 <;>
        (subst h2; exact hinv)

/-- Witness for C3: a fifth consecutive password failure on the demo user
locks the account until `now + 900`. -/
theorem login_lockout_policy_witness :
    login (fun p h => p = h) 0
      (some { demoUser with failedLoginAttempts := 4 }) "wrong" =
      (.invalidCredentials,
        some { demoUser with
                 failedLoginAttempts := 5, lockedUntil := some 900 }) := by
  have h := (login_lockout_policy (fun p h => p = h) 0
    { demoUser with failedLoginAttempts := 4 } "wrong").1
    (by decide) (by decide)
  rw [h.1]
  have h2 : incrementFailedAttempts
      { demoUser with failedLoginAttempts := 4 } 0 =
      { demoUser with failedLoginAttempts := 5, lockedUntil := some 900 } := by
    decide
  rw [h2]

/-! ## C9: profile-update frame property -/

theorem lookupField_filter_none (fs : List (String × String)) (c : String)
    (hc : allowedProfileFields.contains c = false) :
    lookupField
      (fs.filter (fun kv => allowedProfileFields.contains kv.1)) c =
      none := by
  induction fs with
  | nil => rfl
  | cons kv rest ih =>
      rw [List.filter_cons]
      by_cases hk : allowedProfileFields.contains kv.1 = true
      · rw [if_pos (by simpa using hk)]
        unfold lookupField
        have hne : kv.1 ≠ c := by
          intro he
          rw [he, hc] at hk
          cases hk
        rw [if_neg hne]
        exact ih
      · rw [if_neg (by simpa using hk)]
        exact ih

theorem filter_allowed_nil (fs : List (String × String))
    (hall : ∀ kv ∈ fs, allowedProfileFields.contains kv.1 = false) :
    fs.filter (fun kv => allowedProfileFields.contains kv.1) = [] := by
  induction fs with
  | nil => rfl
  | cons kv rest ih =>
      have hm := hall kv (List.mem_cons_self kv rest)
      rw [List.filter_cons, if_neg (by simpa using hm)]
      exact ih (fun x hx => hall x (List.mem_cons_of_mem kv hx))

theorem updateProfile_ok_elim (db : UsersTable) (userID : String)
    (fields : Option (List (String × String))) (db2 : UsersTable)
    (h : updateProfile db userID fields = .ok db2) :
    ∃ fs row, fields = some fs ∧ db userID = some row ∧
      row.isActive = true ∧
      db2 = (fun uid =>
        if uid = userID then
          some (applyUpdates row
            (fs.filter (fun kv => allowedProfileFields.contains kv.1)))
        else db uid) := by
  cases fields with
  | none =>
      unfold updateProfile validateProfileUpdateFields at h
      exact Except.noConfusion h
  | some fs =>
      unfold updateProfile at h
      by_cases he : fs.isEmpty = true
      · have hv : validateProfileUpdateFields (some fs) =
            .error "no fields to update" := by
          simp only [validateProfileUpdateFields]
          rw [if_pos he]
        simp only [hv] at h
        exact Except.noConfusion h
      · have hv : validateProfileUpdateFields (some fs) = .ok fs := by
          simp only [validateProfileUpdateFields]
          rw [if_neg he]
        simp only [hv] at h
        by_cases hf : (fs.filter
            (fun kv => allowedProfileFields.contains kv.1)).isEmpty = true
        · have hff : filterAllowedFields fs =
              .error "no valid fields to update" := by
            simp only [filterAllowedFields]
            rw [if_pos hf]
          simp only [hff] at h
          exact Except.noConfusion h
        · have hff : filterAllowedFields fs = .ok
              (fs.filter (fun kv => allowedProfileFields.contains kv.1)) := by
            simp only [filterAllowedFields]
            rw [if_neg hf]
          simp only [hff] at h
          cases hrow : db userID with
          | none =>
              simp only [hrow] at h
              exact Except.noConfusion h
          | some row =>
              simp only [hrow] at h
              by_cases ha : row.isActive = true
              · rw [if_pos ha] at h
                exact ⟨fs, row, rfl, rfl, ha, (Except.ok.inj h).symm⟩
              · rw [if_neg ha] at h
                exact Except.noConfusion h

/-- C9: a successful `update_profile` changes no user column outside the
allowlist (in particular `password_hash` is unchanged) and touches no
other user; a call whose fields are all outside the allowlist errors, as
do a nil or empty fields map and a non-existent or inactive user. -/
theorem profile_update_frame (db : UsersTable) (userID : String)
    (fields : Option (List (String × String))) :
    (∀ db2, updateProfile db userID fields = .ok db2 →
      (∀ uid, uid ≠ userID → db2 uid = db uid) ∧
      (∀ row2, db2 userID = some row2 → ∃ row, db userID = some row ∧
        row2.isActive = row.isActive ∧
        (∀ c, allowedProfileFields.contains c = false →
          row2.cols c = row.cols c) ∧
        row2.cols "password_hash" = row.cols "password_hash")) ∧
    (∀ fs, fields = some fs → fs ≠ [] →
      (∀ kv ∈ fs, allowedProfileFields.contains kv.1 = false) →
      updateProfile db userID fields = .error "no valid fields to update") ∧
    (fields = none →
      updateProfile db userID fields = .error "fields map cannot be nil") ∧
    (fields = some [] →
      updateProfile db userID fields = .error "no fields to update") ∧
    ((db userID = none ∨
        ∃ row, db userID = some row ∧ row.isActive = false) →
      ∃ e, updateProfile db userID fields = .error e) := by
  refine ⟨?_, ?_, ?_, ?_, ?_⟩
  · intro db2 hok
    obtain ⟨fs, row, hfld, hrow, ha, hdb2⟩ :=
      updateProfile_ok_elim db userID fields db2 hok
    subst hdb2
    constructor
    · intro uid hne
      simp only [if_neg hne]
    · intro row2 h2
      have h2' : some (applyUpdates row
          (fs.filter (fun kv => allowedProfileFields.contains kv.1))) =
          some row2 := by
        rw [← h2]
        dsimp only
        rw [if_pos rfl]
      have h3 := Option.some.inj h2'
      subst h3
      refine ⟨row, hrow, rfl, ?_, ?_⟩
      · intro c hc
        have hl := lookupField_filter_none fs c hc
        unfold applyUpdates
        dsimp only
        rw [hl]
      · have hl := lookupField_filter_none fs "password_hash" (by decide)
        unfold applyUpdates
        dsimp only
        rw [hl]
  · rintro fs rfl hne hall
    have hv : validateProfileUpdateFields (some fs) = .ok fs := by
      simp only [validateProfileUpdateFields]
      rw [if_neg (by simp [List.isEmpty_iff, hne])]
    have hff : filterAllowedFields fs =
        .error "no valid fields to update" := by
      simp only [filterAllowedFields]
      rw [if_pos (by rw [filter_allowed_nil fs hall]; rfl)]
    unfold updateProfile
    simp only [hv, hff]
  · rintro rfl
    rfl
  · rintro rfl
    rfl
  · intro hbad
    refine except_error_of_not_ok _ (fun db2 hok => ?_)
    obtain ⟨fs, row, hfld, hrow, ha, _⟩ :=
      updateProfile_ok_elim db userID fields db2 hok
    rcases hbad with hnone | ⟨row3, h3, hin⟩
    · rw [hrow] at hnone
      cases hnone
    · rw [hrow] at h3
      cases h3
      rw [ha] at hin
      cases hin

/-- Witness for C9: updating a non-existent user errors. -/
theorem profile_update_frame_witness :
    ∃ e, updateProfile (fun _ => none) "u1" (some [("bio", "x")]) =
      .error e :=
  (profile_update_frame (fun _ => none) "u1"
    (some [("bio", "x")])).2.2.2.2 (Or.inl rfl)

/-! ## C2: migration atomicity -/

/-- C2: applying one artifact executes its UP SQL and inserts its tracking
row inside one transaction: when the result reports failure the returned
database state (schema and `schema_migrations`) is exactly the pre-call
state, and when it reports success both the schema effect of the UP SQL
and the tracking row are visible together. -/
theorem migration_atomicity {σ : Type} (exec : String → σ → Except String σ)
    (env : String) (st : MigState σ) (mg : Migration) :
    ((applyMigration exec env st mg).1.success = false →
        (applyMigration exec env st mg).2 = st) ∧
    ((applyMigration exec env st mg).1.success = true →
      ∃ schema2, exec mg.upSQL st.schema = .ok schema2 ∧
        (applyMigration exec env st mg).2.schema = schema2 ∧
        (applyMigration exec env st mg).2.table =
          st.table ++ [migRecordOf env mg]) := by
  unfold applyMigration
  cases hx : exec mg.upSQL st.schema with
  | error e =>
      refine ⟨fun _ => rfl, fun h => ?_⟩
      simp at h
  | ok schema2 =>
      cases hi : insertMigrationRecord st.table (migRecordOf env mg) with
      | error e =>
          refine ⟨fun _ => rfl, fun h => ?_⟩
          simp at h
      | ok table2 =>
          have ht : table2 = st.table ++ [migRecordOf env mg] := by
            unfold insertMigrationRecord at hi
            by_cases hd : st.table.any
                (fun x => x.version = (migRecordOf env mg).version) = true
            · rw [if_pos hd] at hi
              exact Except.noConfusion hi
            · rw [if_neg hd] at hi
              exact (Except.ok.inj hi).symm
          refine ⟨fun h => ?_, fun _ => ⟨schema2, rfl, rfl, ?_⟩⟩
          · simp at h
          · rw [ht]

/-- Witness for C2: a failing UP SQL leaves the concrete database state
untouched. -/
theorem migration_atomicity_witness :
    (applyMigration (fun _ (_ : Nat) => (.error "boom" : Except String Nat))
        "development" { schema := 0, table := [] } demoMigration).2 =
      { schema := 0, table := [] } :=
  (migration_atomicity (fun _ _ => .error "boom") "development"
    { schema := 0, table := [] } demoMigration).1 rfl

/-! ## C4: per-environment migration tracking -/

/-- C4 evaluated at the failing input: version `001` is recorded as
applied in `development` only.  The pending decision in `test` reads only
`test` rows, so `001` is pending there — but actually applying it in
`test` fails on the `UNIQUE (version)` constraint of `schema_migrations`
(unique on `version` alone, not on `(version, environment)`) and rolls
back: the same version cannot be recorded independently per
environment. -/
theorem per_environment_tracking_violated :
    getAppliedVersions [devRecord] "test" = [] ∧
    getAppliedVersions [devRecord] "development" = ["001"] ∧
    getPendingMigrations [demoMigration] [devRecord] "test" =
      [demoMigration] ∧
    (applyMigration (fun _ (s : Nat) => .ok s) "test"
        { schema := 0, table := [devRecord] } demoMigration).1.success =
      false ∧
    (applyMigration (fun _ (s : Nat) => .ok s) "test"
        { schema := 0, table := [devRecord] } demoMigration).1.errMsg =
      some "duplicate key value violates unique constraint" ∧
    (applyMigration (fun _ (s : Nat) => .ok s) "test"
        { schema := 0, table := [devRecord] } demoMigration).2.table =
      [devRecord] := by
  refine ⟨?_, ?_, ?_, ?_, ?_, ?_⟩ <;> rfl

/-! ## C5: checksum integrity -/

/-- C5 evaluated at the failing input: artifact `001` is recorded as
applied in `development` with a checksum that no longer matches the hash
of the content now on disk.  The mismatch never causes reapplication
(`001` stays off the pending list), but no component reports it either:
`ValidateSchema` — the only validation the migrator has — checks just the
required-table list and succeeds. -/
theorem checksum_mismatch_unreported :
    calculateChecksum demoSha "ALTER TABLE users DROP COLUMN email;" ≠
      staleChecksumRecord.checksum ∧
    getPendingMigrations
      (loadMigrationFiles demoSha
        [("001_initial_schema.sql",
          "ALTER TABLE users DROP COLUMN email;")])
      [staleChecksumRecord] "development" = [] ∧
    validateSchema ["users", "sessions", "login_attempts",
      "user_preferences", "user_activities", "user_notifications",
      "schema_migrations"] = .ok () := by
  refine ⟨by decide, by decide, rfl⟩

/-! ## C8: migration ordering -/

/-- C8 falsified at a concrete input: with artifacts versioned `2` and
`10`, the loader orders them numerically, `["2", "10"]`, although in the
lexicographic string order `"10"` strictly precedes `"2"`: the source
sorts by `strconv.Atoi` of the version, not by the string as the claim
states. -/
theorem migration_order_not_lexicographic :
    (loadMigrationFiles demoSha
        [("10_b.sql", "SELECT 2;"), ("2_a.sql", "SELECT 1;")]).map
      (fun m => m.version) = ["2", "10"] ∧
    stringLexLe "10" "2" = true ∧ stringLexLe "2" "10" = false :=
  ⟨by decide, by decide, by decide⟩

theorem mem_insertByVersion (mg b : Migration) (l : List Migration) :
    b ∈ insertByVersion mg l ↔ b = mg ∨ b ∈ l := by
  induction l with
  | nil => simp [insertByVersion]
  | cons x xs ih =>
      unfold insertByVersion
      by_cases h : goAtoi mg.version ≤ goAtoi x.version
      · rw [if_pos h]
        simp [List.mem_cons]
      · rw [if_neg h]
        simp only [List.mem_cons, ih]
        tauto

theorem pairwise_insertByVersion (mg : Migration) (l : List Migration)
    (hl : l.Pairwise (fun a b => goAtoi a.version ≤ goAtoi b.version)) :
    (insertByVersion mg l).Pairwise
      (fun a b => goAtoi a.version ≤ goAtoi b.version) := by
  induction l with
  | nil => simp [insertByVersion]
  | cons x xs ih =>
      rw [List.pairwise_cons] at hl
      unfold insertByVersion
      by_cases h : goAtoi mg.version ≤ goAtoi x.version
      · rw [if_pos h]
        refine List.Pairwise.cons ?_ (List.Pairwise.cons hl.1 hl.2)
        intro b hb
        rcases List.mem_cons.mp hb with rfl | hbxs
        · exact h
        · exact le_trans h (hl.1 b hbxs)
      · rw [if_neg h]
        refine List.Pairwise.cons ?_ (ih hl.2)
        intro b hb
        rcases (mem_insertByVersion mg b xs).mp hb with rfl | hbxs
        · omega
        · exact hl.1 b hbxs

theorem pairwise_sortMigrations (l : List Migration) :
    (sortMigrations l).Pairwise
      (fun a b => goAtoi a.version ≤ goAtoi b.version) := by
  induction l with
  | nil => exact List.Pairwise.nil
  | cons x xs ih => exact pairwise_insertByVersion x (sortMigrations xs) ih

theorem applyMigration_result_migration {σ : Type}
    (exec : String → σ → Except String σ) (env : String) (st : MigState σ)
    (mg : Migration) :
    (applyMigration exec env st mg).1.migration = mg := by
  unfold applyMigration
  cases exec mg.upSQL st.schema with
  | error e => rfl
  | ok s2 =>
      cases insertMigrationRecord st.table (migRecordOf env mg) with
      | error e => rfl
      | ok t2 => rfl

theorem applyMigrationsFrom_spec {σ : Type}
    (exec : String → σ → Except String σ) (env : String)
    (pending : List Migration) :
    ∀ st : MigState σ,
      ((applyMigrationsFrom exec env st pending).1.map
          (fun r => r.migration) =
        pending.take (applyMigrationsFrom exec env st pending).1.length) ∧
      ((applyMigrationsFrom exec env st pending).2.2 = none →
        (applyMigrationsFrom exec env st pending).1.length =
          pending.length ∧
        ∀ r ∈ (applyMigrationsFrom exec env st pending).1,
          r.success = true) ∧
      (∀ m, (applyMigrationsFrom exec env st pending).2.2 = some m →
        ∃ pre r, (applyMigrationsFrom exec env st pending).1 =
            pre ++ [r] ∧ r.success = false ∧
          ∀ r2 ∈ pre, r2.success = true) := by
  induction pending with
  | nil =>
      intro st
      exact ⟨rfl, fun _ => ⟨rfl, by simp [applyMigrationsFrom]⟩,
        fun m hm => by simp [applyMigrationsFrom] at hm⟩
  | cons mg rest ih =>
      intro st
      by_cases hs : (applyMigration exec env st mg).1.success = true
      · have heq : applyMigrationsFrom exec env st (mg :: rest) =
            ((applyMigration exec env st mg).1 ::
              (applyMigrationsFrom exec env
                (applyMigration exec env st mg).2 rest).1,
             (applyMigrationsFrom exec env
               (applyMigration exec env st mg).2 rest).2) := by
          simp only [applyMigrationsFrom]
          rw [if_pos hs]
        have ihr := ih (applyMigration exec env st mg).2
        refine ⟨?_, ?_, ?_⟩
        · rw [heq]
          simp only [List.map_cons, List.length_cons, List.take_succ_cons]
          rw [applyMigration_result_migration, ihr.1]
        · intro hnone
          rw [heq] at hnone ⊢
          obtain ⟨hlen, hall⟩ := ihr.2.1 hnone
          refine ⟨by simp [hlen], ?_⟩
          intro r hr
          rcases List.mem_cons.mp hr with rfl | hrm
          · exact hs
          · exact hall r hrm
        · intro m hm
          rw [heq] at hm ⊢
          obtain ⟨pre, r, hpre, hrf, hprev⟩ := ihr.2.2 m hm
          refine ⟨(applyMigration exec env st mg).1 :: pre, r, ?_, hrf, ?_⟩
          · simp [hpre]
          · intro r2 hr2
            rcases List.mem_cons.mp hr2 with rfl | hrm
            · exact hs
            · exact hprev r2 hrm
      · have heq : applyMigrationsFrom exec env st (mg :: rest) =
            ([(applyMigration exec env st mg).1],
             (applyMigration exec env st mg).2,
             some ("migration " ++ mg.version ++ " failed")) := by
          simp only [applyMigrationsFrom]
          rw [if_neg hs]
        refine ⟨?_, ?_, ?_⟩
        · rw [heq]
          simp [applyMigration_result_migration]
        · intro hnone
          rw [heq] at hnone
          simp at hnone
        · intro m hm
          refine ⟨[], (applyMigration exec env st mg).1, ?_,
            by simpa using hs, ?_⟩
          · simp [heq]
          · intro r2 hr2
            simp at hr2

/-- C8 (amended): `apply()` applies every pending artifact in version
order and on the first failing artifact stops and returns the results
accumulated so far (the failed result last, every earlier one
successful) — but the version order is numeric, by the integer
`strconv.Atoi` parses from the version string (0 on a parse error), not
the lexicographic string order the claim states. -/
theorem migration_apply_order_numeric {σ : Type}
    (exec : String → σ → Except String σ) (env : String)
    (sha256 : String → List (Fin 256)) (files : List (String × String))
    (st : MigState σ) :
    (loadMigrationFiles sha256 files).Pairwise
      (fun a b => goAtoi a.version ≤ goAtoi b.version) ∧
    ((applyMigrations exec env sha256 files st).1.map
        (fun r => r.migration) =
      (getPendingMigrations (loadMigrationFiles sha256 files) st.table
        env).take (applyMigrations exec env sha256 files st).1.length) ∧
    ((applyMigrations exec env sha256 files st).2.2 = none →
      (applyMigrations exec env sha256 files st).1.length =
        (getPendingMigrations (loadMigrationFiles sha256 files) st.table
          env).length ∧
      ∀ r ∈ (applyMigrations exec env sha256 files st).1,
        r.success = true) ∧
    (∀ m, (applyMigrations exec env sha256 files st).2.2 = some m →
      ∃ pre r, (applyMigrations exec env sha256 files st).1 =
          pre ++ [r] ∧ r.success = false ∧
        ∀ r2 ∈ pre, r2.success = true) := by
  have hs := applyMigrationsFrom_spec exec env
    (getPendingMigrations (loadMigrationFiles sha256 files) st.table env) st
  exact ⟨pairwise_sortMigrations _, hs.1, hs.2.1, hs.2.2⟩

/-- Witness for C8 at a concrete clean run: both artifacts are applied,
with no error. -/
theorem migration_apply_order_numeric_witness :
    (applyMigrations (fun _ (s : Nat) => .ok s) "development" demoSha
        [("10_b.sql", "SELECT 2;"), ("2_a.sql", "SELECT 1;")]
        { schema := 0, table := [] }).1.length = 2 ∧
    ∀ r ∈ (applyMigrations (fun _ (s : Nat) => .ok s) "development" demoSha
        [("10_b.sql", "SELECT 2;"), ("2_a.sql", "SELECT 1;")]
        { schema := 0, table := [] }).1, r.success = true := by
  have h := (migration_apply_order_numeric (fun _ (s : Nat) => .ok s)
    "development" demoSha
    [("10_b.sql", "SELECT 2;"), ("2_a.sql", "SELECT 1;")]
    { schema := 0, table := [] }).2.2.1 (by decide)
  exact ⟨h.1.trans (by decide), h.2⟩

/-! ## C1 and C10: refresh rotation -/

theorem refreshTokenOp_ok_elim (cfg : JWTConfig) (hash : Token → String)
    (now : Int) (delFails : Bool) (st : AuthState) (req : Token)
    (resp : RefreshResponse) (st' : AuthState)
    (h : refreshTokenOp cfg hash now delFails st req = .ok (resp, st')) :
    ∃ user,
      validateRefreshToken cfg now req = .ok req.claims ∧
      st.redis (.blacklist (hash req)) = none ∧
      st.redis (.refreshTok (hash req)) = some req.claims.userID ∧
      st.users req.claims.userID = some user ∧ user.isActive = true ∧
      resp = { accessToken := generateAccessToken cfg now user,
               refreshToken := generateRefreshToken cfg now user,
               tokenType := "Bearer", expiresIn := 15 * 60 } ∧
      st'.users = st.users ∧
      st'.redis = (if delFails then
          storeRefreshToken st.redis user.id
            (hash (generateRefreshToken cfg now user))
        else
          deleteRefreshToken
            (storeRefreshToken st.redis user.id
              (hash (generateRefreshToken cfg now user)))
            (hash req)) := by
  unfold refreshTokenOp at h
  cases hv : validateRefreshToken cfg now req with
  | error e =>
      rw [hv] at h
      exact Except.noConfusion h
  | ok claims =>
      have hcl : claims = req.claims :=
        ((validateRefreshToken_ok_iff cfg now req claims).mp hv).2.2.2.2
      subst hcl
      simp only [hv] at h
      cases hb : isTokenBlacklisted st.redis (hash req) with
      | true =>
          rw [if_pos hb] at h
          exact Except.noConfusion h
      | false =>
          rw [if_neg (by simp [hb])] at h
          have hblk : st.redis (.blacklist (hash req)) = none := by
            unfold isTokenBlacklisted at hb
            cases ho : st.redis (.blacklist (hash req)) with
            | none => rfl
            | some v =>
                rw [ho] at hb
                exact Bool.noConfusion hb
          cases hred : st.redis (.refreshTok (hash req)) with
          | none =>
              have hg : getRefreshTokenData st.redis (hash req) =
                  .error "refresh token not found" := by
                unfold getRefreshTokenData
                rw [hred]
              simp only [hg] at h
              exact Except.noConfusion h
          | some v =>
              have hg : getRefreshTokenData st.redis (hash req) = .ok v := by
                unfold getRefreshTokenData
                rw [hred]
              simp only [hg] at h
              by_cases hveq : v = req.claims.userID
              · subst hveq
                rw [if_neg (by simp)] at h
                cases hu : st.users req.claims.userID with
                | none =>
                    have hgid : getByID st.users req.claims.userID =
                        .error "user not found" := by
                      unfold getByID
                      simp only [hu]
                    simp only [hgid] at h
                    exact Except.noConfusion h
                | some user =>
                    by_cases ha : user.isActive = true
                    · have hgid : getByID st.users req.claims.userID =
                          .ok user := by
                        unfold getByID
                        simp only [hu]
                        rw [if_pos ha]
                      simp only [hgid] at h
                      rw [if_neg (by simp [ha])] at h
                      have hp := Except.ok.inj h
                      have h1 := congrArg Prod.fst hp
                      have h2 := congrArg Prod.snd hp
                      dsimp only at h1 h2
                      refine ⟨user, rfl, hblk, rfl, rfl, ha, h1.symm,
                        ?_, ?_⟩
                      · rw [← h2]
                        cases delFails <;> rfl
                      · rw [← h2]
                        cases delFails <;> rfl
                    · have hgid : getByID st.users req.claims.userID =
                          .error "user not found" := by
                        unfold getByID
                        simp only [hu]
                        rw [if_neg ha]
                      simp only [hgid] at h
                      exact Except.noConfusion h
              · rw [if_pos hveq] at h
                exact Except.noConfusion h

theorem refreshTokenOp_ok_intro (cfg : JWTConfig) (hash : Token → String)
    (now : Int) (delFails : Bool) (st : AuthState) (req : Token)
    (user : User)
    (hval : validateRefreshToken cfg now req = .ok req.claims)
    (hbl : st.redis (.blacklist (hash req)) = none)
    (hred : st.redis (.refreshTok (hash req)) = some req.claims.userID)
    (hu : st.users req.claims.userID = some user)
    (ha : user.isActive = true) :
    refreshTokenOp cfg hash now delFails st req = .ok
      ({ accessToken := generateAccessToken cfg now user,
         refreshToken := generateRefreshToken cfg now user,
         tokenType := "Bearer", expiresIn := 15 * 60 },
       { redis := (if delFails then
             storeRefreshToken st.redis user.id
               (hash (generateRefreshToken cfg now user))
           else
             deleteRefreshToken
               (storeRefreshToken st.redis user.id
                 (hash (generateRefreshToken cfg now user)))
               (hash req)),
         users := st.users }) := by
  unfold refreshTokenOp
  simp only [hval]
  have hb : isTokenBlacklisted st.redis (hash req) = false := by
    unfold isTokenBlacklisted
    rw [hbl]
    rfl
  rw [if_neg (by simp [hb])]
  have hg : getRefreshTokenData st.redis (hash req) =
      .ok req.claims.userID := by
    unfold getRefreshTokenData
    rw [hred]
  simp only [hg]
  rw [if_neg (by simp)]
  have hgid : getByID st.users req.claims.userID = .ok user := by
    unfold getByID
    simp only [hu]
    rw [if_pos ha]
  simp only [hgid]
  rw [if_neg (by simp [ha])]
  cases delFails <;> rfl

theorem refreshTokenOp_notFound (cfg : JWTConfig) (hash : Token → String)
    (now : Int) (delFails : Bool) (st : AuthState) (req : Token)
    (hval : validateRefreshToken cfg now req = .ok req.claims)
    (hbl : st.redis (.blacklist (hash req)) = none)
    (hred : st.redis (.refreshTok (hash req)) = none) :
    refreshTokenOp cfg hash now delFails st req =
      .error "refresh token not found" := by
  unfold refreshTokenOp
  simp only [hval]
  have hb : isTokenBlacklisted st.redis (hash req) = false := by
    unfold isTokenBlacklisted
    rw [hbl]
    rfl
  rw [if_neg (by simp [hb])]
  have hg : getRefreshTokenData st.redis (hash req) =
      .error "refresh token not found" := by
    unfold getRefreshTokenData
    rw [hred]
  simp only [hg]

/-- C1: when a refresh of R succeeds (its old-record delete succeeding —
the code does not check it, see C10), the ephemeral record of R is
deleted in the returned state before the pair is returned; any
subsequent refresh with R (while R is unexpired) fails with the
refresh-not-found error; and the freshly issued R' succeeds exactly
once: it succeeds on the returned state, after which its own record is
deleted and replaying it also fails with refresh-not-found.  `husers`
is the repository invariant that the row stored under an id carries
that id; `hfresh` is pointwise collision-freeness of the SHA-256
fingerprint for the fresh token; `hbl2` says the fresh fingerprint is
not blacklisted. -/
theorem refresh_rotation_at_most_once (cfg : JWTConfig)
    (hash : Token → String) (now : Int) (st : AuthState) (req : Token)
    (resp : RefreshResponse) (st' : AuthState)
    (husers : ∀ uid u, st.users uid = some u → u.id = uid)
    (hok : refreshTokenOp cfg hash now false st req = .ok (resp, st'))
    (hfresh : hash resp.refreshToken ≠ hash req)
    (hbl2 : st.redis (.blacklist (hash resp.refreshToken)) = none) :
    st'.redis (.refreshTok (hash req)) = none ∧
    (∀ now2 d, now2 ≤ req.claims.expiresAt →
      refreshTokenOp cfg hash now2 d st' req =
        .error "refresh token not found") ∧
    (∀ now2, now2 ≤ resp.refreshToken.claims.expiresAt →
      ∃ resp2 st2,
        refreshTokenOp cfg hash now2 false st' resp.refreshToken =
          .ok (resp2, st2) ∧
        st2.redis (.refreshTok (hash resp.refreshToken)) = none ∧
        ∀ now3 d, now3 ≤ resp.refreshToken.claims.expiresAt →
          refreshTokenOp cfg hash now3 d st2 resp.refreshToken =
            .error "refresh token not found") := by
  obtain ⟨user, hval, hbl, hred, hu, ha, hresp, hust, hredis⟩ :=
    refreshTokenOp_ok_elim cfg hash now false st req resp st' hok
  have hvf := (validateRefreshToken_ok_iff cfg now req req.claims).mp hval
  have hRid : user.id = req.claims.userID := husers _ _ hu
  rw [hresp] at hfresh hbl2 ⊢
  dsimp only at hfresh hbl2 ⊢
  have hredis' : st'.redis = deleteRefreshToken
      (storeRefreshToken st.redis user.id
        (hash (generateRefreshToken cfg now user)))
      (hash req) := by
    rw [hredis]
    rfl
  have hdel : st'.redis (.refreshTok (hash req)) = none := by
    simp [hredis', deleteRefreshToken, storeDel]
  have hblk1 : st'.redis (.blacklist (hash req)) = none := by
    simp [hredis', deleteRefreshToken, storeDel, storeRefreshToken,
      storeSet, hbl]
  refine ⟨hdel, ?_, ?_⟩
  · intro now2 d h2
    exact refreshTokenOp_notFound cfg hash now2 d st' req
      ((validateRefreshToken_ok_iff cfg now2 req req.claims).mpr
        ⟨hvf.1, hvf.2.1, not_lt.mpr h2, hvf.2.2.2.1, rfl⟩)
      hblk1 hdel
  · intro now2 h2
    have hval2 : validateRefreshToken cfg now2
        (generateRefreshToken cfg now user) =
        .ok (generateRefreshToken cfg now user).claims :=
      (validateRefreshToken_ok_iff cfg now2
        (generateRefreshToken cfg now user)
        (generateRefreshToken cfg now user).claims).mpr
        ⟨rfl, rfl, not_lt.mpr h2, rfl, rfl⟩
    have hblk2 : st'.redis
        (.blacklist (hash (generateRefreshToken cfg now user))) = none := by
      simp [hredis', deleteRefreshToken, storeDel, storeRefreshToken,
        storeSet, hbl2]
    have hred2 : st'.redis
        (.refreshTok (hash (generateRefreshToken cfg now user))) =
        some (generateRefreshToken cfg now user).claims.userID := by
      rw [hredis']
      simp only [deleteRefreshToken, storeDel, storeRefreshToken, storeSet]
      rw [if_neg (by simp [hfresh])]
      rfl
    have hu2 : st'.users
        (generateRefreshToken cfg now user).claims.userID = some user := by
      show st'.users user.id = some user
      rw [hust, hRid]
      exact hu
    refine ⟨_, _, refreshTokenOp_ok_intro cfg hash now2 false st'
      (generateRefreshToken cfg now user) user hval2 hblk2 hred2 hu2 ha,
      ?_, ?_⟩
    · simp [deleteRefreshToken, storeDel]
    · intro now3 d h3
      refine refreshTokenOp_notFound cfg hash now3 d _ _
        ((validateRefreshToken_ok_iff cfg now3
          (generateRefreshToken cfg now user)
          (generateRefreshToken cfg now user).claims).mpr
          ⟨rfl, rfl, not_lt.mpr h3, rfl, rfl⟩) ?_ ?_
      · simp [deleteRefreshToken, storeDel, storeRefreshToken, storeSet,
          hblk2]
      · simp [deleteRefreshToken, storeDel]

/-- Witness for C1: rotating the demo refresh token deletes its record
from the returned state. -/
theorem refresh_rotation_at_most_once_witness :
    ({ redis := deleteRefreshToken
         (storeRefreshToken demoStore "u1"
           (demoHash (generateRefreshToken demoCfg 0 demoUser)))
         (demoHash demoOldRefresh),
       users := demoState.users } : AuthState).redis
      (.refreshTok (demoHash demoOldRefresh)) = none := by
  have husers : ∀ uid u, demoState.users uid = some u → u.id = uid := by
    intro uid u h
    by_cases huid : uid = "u1"
    · subst huid
      have hud : demoUser = u := by
        simpa [demoState] using h
      rw [← hud]
      rfl
    · simp [demoState, huid] at h
  exact (refresh_rotation_at_most_once demoCfg demoHash 0 demoState
    demoOldRefresh
    { accessToken := generateAccessToken demoCfg 0 demoUser,
      refreshToken := generateRefreshToken demoCfg 0 demoUser,
      tokenType := "Bearer", expiresIn := 15 * 60 }
    { redis := deleteRefreshToken
        (storeRefreshToken demoStore "u1"
          (demoHash (generateRefreshToken demoCfg 0 demoUser)))
        (demoHash demoOldRefresh),
      users := demoState.users }
    husers rfl (by decide) (by decide)).1

/-- C10: the code discards the error of the old-record delete: whenever
the rotation succeeds with the delete working, the same call with the
delete failing still returns the very same new token pair as success,
the old record refresh_token:{hash(R)} stays present in the returned
state, and the old refresh token R can immediately be replayed
successfully (until its TTL removes the record). -/
theorem refresh_delete_error_discarded (cfg : JWTConfig)
    (hash : Token → String) (now : Int) (st : AuthState) (req : Token)
    (resp : RefreshResponse) (st' : AuthState)
    (hok : refreshTokenOp cfg hash now false st req = .ok (resp, st'))
    (hfresh : hash resp.refreshToken ≠ hash req) :
    ∃ st2, refreshTokenOp cfg hash now true st req = .ok (resp, st2) ∧
      st2.redis (.refreshTok (hash req)) = some req.claims.userID ∧
      (∀ now2, now2 ≤ req.claims.expiresAt →
        ∃ resp3 st3,
          refreshTokenOp cfg hash now2 false st2 req = .ok (resp3, st3)) := by
  obtain ⟨user, hval, hbl, hred, hu, ha, hresp, hust, hredis⟩ :=
    refreshTokenOp_ok_elim cfg hash now false st req resp st' hok
  have hvf := (validateRefreshToken_ok_iff cfg now req req.claims).mp hval
  rw [hresp] at hfresh ⊢
  dsimp only at hfresh ⊢
  refine ⟨{ redis := storeRefreshToken st.redis user.id
                       (hash (generateRefreshToken cfg now user)),
            users := st.users },
    ?_, ?_, ?_⟩
  · exact refreshTokenOp_ok_intro cfg hash now true st req user hval hbl
      hred hu ha
  · simp [storeRefreshToken, storeSet, hfresh.symm, hred]
  · intro now2 h2
    have hval2 : validateRefreshToken cfg now2 req = .ok req.claims :=
      (validateRefreshToken_ok_iff cfg now2 req req.claims).mpr
        ⟨hvf.1, hvf.2.1, not_lt.mpr h2, hvf.2.2.2.1, rfl⟩
    refine ⟨_, _, refreshTokenOp_ok_intro cfg hash now2 false
      { redis := storeRefreshToken st.redis user.id
                   (hash (generateRefreshToken cfg now user)),
        users := st.users }
      req user hval2 ?_ ?_ hu ha⟩
    · simp [storeRefreshToken, storeSet, hbl]
    · simp [storeRefreshToken, storeSet, hfresh.symm, hred]

/-- Witness for C10: with the delete failing, rotating the demo refresh
token still succeeds and leaves its old record in place. -/
theorem refresh_delete_error_discarded_witness :
    ∃ st2, refreshTokenOp demoCfg demoHash 0 true demoState
        demoOldRefresh =
        .ok ({ accessToken := generateAccessToken demoCfg 0 demoUser,
               refreshToken := generateRefreshToken demoCfg 0 demoUser,
               tokenType := "Bearer", expiresIn := 15 * 60 }, st2) ∧
      st2.redis (.refreshTok (demoHash demoOldRefresh)) =
        some demoOldRefresh.claims.userID ∧
      (∀ now2, now2 ≤ demoOldRefresh.claims.expiresAt →
        ∃ resp3 st3, refreshTokenOp demoCfg demoHash now2 false st2
            demoOldRefresh = .ok (resp3, st3)) :=
  refresh_delete_error_discarded demoCfg demoHash 0 demoState
    demoOldRefresh
    { accessToken := generateAccessToken demoCfg 0 demoUser,
      refreshToken := generateRefreshToken demoCfg 0 demoUser,
      tokenType := "Bearer", expiresIn := 15 * 60 }
    { redis := deleteRefreshToken
        (storeRefreshToken demoStore "u1"
          (demoHash (generateRefreshToken demoCfg 0 demoUser)))
        (demoHash demoOldRefresh),
      users := demoState.users }
    rfl (by decide)

end AuthSpec
